import Mathlib

/-!
# Verification of the snake-cpp BMP decoder

Shallow embedding of the BMP loader found in the repository (the complete,
non-draft loader: `reverseBytes`, the `extractLittleEndian*` family,
`Image::loadBmp`, `Image::extractFileHeader`, `Image::extractInfoHeader`,
`Image::extractAppendedRGBMasks`, `Image::extractColorPalette`,
`Image::extractPalettedPixels`, `Image::extractPixels`), together with
theorems settling the specification's claims about it.

Modelling conventions:
* A file is a `List Nat` of byte values; reads go through `byteAt`, which
  reduces modulo 256 (a `char` holds one byte) and yields 0 past the end of
  the buffer (the C++ reads into caller buffers whose bytes past EOF are
  unspecified; no claim depends on them).
* Machine integers are `Nat` (unsigned) or `Int` (signed) with explicit
  wrapping where the width matters.
* Functions that fail to terminate in the C++ (the channel-shift scan on a
  zero mask, the palette loop whose `uint8_t` counter can never reach a
  bound ≥ 256) or hit undefined behavior (out-of-bounds palette indexing)
  are embedded as `Option`-returning functions, `none` marking those
  executions.
-/

/-- Structure `Color4` from the repository: four 8-bit channels (red, green, blue,
alpha), default alpha 0. -/
structure Color4 where
  red : Nat
  green : Nat
  blue : Nat
  alpha : Nat
deriving DecidableEq, Repr

/-- Read the byte at offset `i` of a file buffer: file contents are bytes,
so the value is reduced mod 256; offsets past the end read as 0 (the C++
leaves the destination buffer unspecified there; no claim depends on it). -/
def byteAt (file : List Nat) (i : Nat) : Nat :=
  file.getD i 0 % 256

/-- Function `reverseBytes(char* bytes, int count)` from the source, embedded over a
`List Nat` standing for the `count`-byte buffer.  The source computes
`swaps` and swaps pairs, but the write-back of the saved byte goes to
`bytes[count - i]` (not `bytes[count - 1 - i]`): for `i = 0` this writes one
slot past the buffer (modelled by `List.set` out of range, a no-op on the
buffer itself; the clobbering of adjacent memory is not modelled) and the
intended slot `bytes[count - 1]` keeps its old value. -/
def reverseBytes (bytes : List Nat) (count : Nat) : List Nat :=
  let swaps := if count % 2 == 1 then (count - 1) / 2 else count / 2
  go bytes swaps 0
where
  /-- One iteration per `i < swaps`: `tmp = bytes[i]; bytes[i] = bytes[count-1-i];
  bytes[count-i] = tmp`. -/
  go (b : List Nat) (remaining i : Nat) : List Nat :=
    match remaining with
    | 0 => b
    | r + 1 =>
      let tmp := b.getD i 0
      let b1 := b.set i (b.getD (count - 1 - i) 0)
      let b2 := b1.set (count - i) tmp
      go b2 r (i + 1)

/-- Value of the first `n` bytes of a buffer read as a little-endian
unsigned integer (byte 0 in the least-significant position).  This is what
`*(reinterpret_cast<uintN_t*>(buffer))` computes on a little-endian host. -/
def leValue (bytes : List Nat) (n : Nat) : Nat :=
  match n with
  | 0 => 0
  | m + 1 => (bytes.getD 0 0 % 256) + 256 * leValue bytes.tail m

/-- Value of the first `n` bytes of a buffer read as a big-endian unsigned
integer (byte 0 in the most-significant position).  This is what the same
reinterpretation computes on a big-endian host. -/
def beValue (bytes : List Nat) (n : Nat) : Nat :=
  match n with
  | 0 => 0
  | m + 1 => (bytes.getD 0 0 % 256) * 256 ^ m + beValue bytes.tail m

/-- Reinterpretation (two's-complement) of an `n`-byte unsigned value as a
signed integer, as done by the `int16_t/int32_t/int64_t` extractors. -/
def toSigned (v : Nat) (n : Nat) : Int :=
  if v < 2 ^ (8 * n - 1) then (v : Int) else (v : Int) - 2 ^ (8 * n)

/-- Function `extractLittleEndianUint16`: on a little-endian host the buffer is
reinterpreted directly; on a big-endian host it is first passed through
`reverseBytes` and then reinterpreted (big-endian read). -/
def extractLittleEndianUint16 (littleEndianHost : Bool) (buffer : List Nat) : Nat :=
  if littleEndianHost then leValue buffer 2 else beValue (reverseBytes buffer 2) 2

/-- Function `extractLittleEndianUint32`, host-endianness-parametrised as above. -/
def extractLittleEndianUint32 (littleEndianHost : Bool) (buffer : List Nat) : Nat :=
  if littleEndianHost then leValue buffer 4 else beValue (reverseBytes buffer 4) 4

/-- Function `extractLittleEndianUint64`, host-endianness-parametrised as above. -/
def extractLittleEndianUint64 (littleEndianHost : Bool) (buffer : List Nat) : Nat :=
  if littleEndianHost then leValue buffer 8 else beValue (reverseBytes buffer 8) 8

/-- Function `extractLittleEndianInt16`: the unsigned extraction reinterpreted as a
two's-complement `int16_t`. -/
def extractLittleEndianInt16 (littleEndianHost : Bool) (buffer : List Nat) : Int :=
  toSigned (extractLittleEndianUint16 littleEndianHost buffer) 2

/-- Function `extractLittleEndianInt32`: two's-complement `int32_t` variant. -/
def extractLittleEndianInt32 (littleEndianHost : Bool) (buffer : List Nat) : Int :=
  toSigned (extractLittleEndianUint32 littleEndianHost buffer) 4

/-- Function `extractLittleEndianInt64`: two's-complement `int64_t` variant. -/
def extractLittleEndianInt64 (littleEndianHost : Bool) (buffer : List Nat) : Int :=
  toSigned (extractLittleEndianUint64 littleEndianHost buffer) 8

/-- Little-endian `n`-byte unsigned read at offset `off` of a file, as the
loader performs it on the (little-endian) host it actually runs on: the
`extractLittleEndianUintN(bytes + off)` calls reduce to this. -/
def u (file : List Nat) (off n : Nat) : Nat :=
  match n with
  | 0 => 0
  | m + 1 => byteAt file off + 256 * u file (off + 1) m

/-- Unsigned 16-bit field at `off`. -/
def u16 (file : List Nat) (off : Nat) : Nat := u file off 2

/-- Unsigned 32-bit field at `off`. -/
def u32 (file : List Nat) (off : Nat) : Nat := u file off 4

/-- Signed 32-bit field at `off` (`extractLittleEndianInt32`). -/
def i32 (file : List Nat) (off : Nat) : Int := toSigned (u32 file off) 4

/-- Record `BitmapFileHeader` as extracted by `Image::extractFileHeader` (the two
reserved fields are never read by the source and are omitted). -/
structure BitmapFileHeader where
  fileMagic : Nat
  fileSize : Nat
  pixelOffset_bytes : Nat
deriving DecidableEq, Repr

/-- Record `BitmapInfoHeader`: the combined info-header record of the source (every
version's fields in one struct, `memset` to zero before extraction). -/
structure BitmapInfoHeader where
  headerSize_bytes : Nat
  bmpWidth_px : Int
  bmpHeight_px : Int
  numColorPlanes : Nat
  bitsPerPixel : Nat
  compression : Nat
  rawImageSize_bytes : Nat
  horizontalResolution_pxPm : Int
  verticalResolution_pxPm : Int
  numPaletteColors : Nat
  numImportantColors : Nat
  redMask : Nat
  greenMask : Nat
  blueMask : Nat
  alphaMask : Nat
  colorSpaceMagic : Nat
deriving DecidableEq, Repr

/-- The five header sizes the source's switches have cases for
(`BITMAPINFOHEADER` .. `BITMAPV5HEADER`).  The 12-byte `BITMAPCOREHEADER`
is named in the source's comments but has no case in either switch. -/
def handledHeaderSizes : List Nat := [40, 52, 56, 108, 124]

/-- Method `Image::extractFileHeader`: magic at offset 0, file size at 2, pixel
offset at 10, all little-endian. -/
def extractFileHeader (file : List Nat) : BitmapFileHeader :=
  { fileMagic := u16 file 0
    fileSize := u32 file 2
    pixelOffset_bytes := u32 file 10 }

/-- Method `Image::extractAppendedRGBMasks`: reads 12 bytes at file offset
14 + BIHO_RED_MASK = 54 and returns the red, green and blue masks. -/
def extractAppendedRGBMasks (file : List Nat) : Nat × Nat × Nat :=
  (u32 file 54, u32 file 58, u32 file 62)

/-- Method `Image::extractInfoHeader`: reads the header-size discriminant at file
offset 14, then fills fields by falling through the size cases from largest
to smallest (124/108 → color-space magic at 70; 56 → alpha mask at 66;
52 → RGB masks via `extractAppendedRGBMasks`; 40 → the base field block).
A size with no case (12 included) leaves every field of the `memset`-zeroed
struct at 0 except the size itself. -/
def extractInfoHeader (file : List Nat) : BitmapInfoHeader :=
  let hs := u32 file 14
  let base := handledHeaderSizes.contains hs
  let hasMasks := hs == 52 || hs == 56 || hs == 108 || hs == 124
  let hasAlpha := hs == 56 || hs == 108 || hs == 124
  let hasColorSpace := hs == 108 || hs == 124
  let masks := extractAppendedRGBMasks file
  { headerSize_bytes := hs
    bmpWidth_px := if base then i32 file 18 else 0
    bmpHeight_px := if base then i32 file 22 else 0
    numColorPlanes := if base then u16 file 26 else 0
    bitsPerPixel := if base then u16 file 28 else 0
    compression := if base then u32 file 30 else 0
    rawImageSize_bytes := if base then u32 file 34 else 0
    horizontalResolution_pxPm := if base then i32 file 38 else 0
    verticalResolution_pxPm := if base then i32 file 42 else 0
    numPaletteColors := if base then u32 file 46 else 0
    numImportantColors := if base then u32 file 50 else 0
    redMask := if hasMasks then masks.1 else 0
    greenMask := if hasMasks then masks.2.1 else 0
    blueMask := if hasMasks then masks.2.2 else 0
    alphaMask := if hasAlpha then u32 file 66 else 0
    colorSpaceMagic := if hasColorSpace then u32 file 70 else 0 }

/-- Method `Image::extractColorPalette`: seeks to 14 + headerSize and reads
`numPaletteColors` 4-byte entries in blue, green, red, alpha byte order.
The source's loop counter `i` is a `uint8_t` compared against a `uint32_t`
count, so the loop terminates (after exactly `count` iterations) precisely
when `count < 256`; for `count ≥ 256` the wrapped counter never reaches the
bound and the loop runs forever, modelled as `none`. -/
def extractColorPalette (file : List Nat) (headerSize count : Nat) :
    Option (List Color4) :=
  if count < 256 then
    some ((List.range count).map fun i =>
      let off := 14 + headerSize + 4 * i
      { red := byteAt file (off + 2)
        green := byteAt file (off + 1)
        blue := byteAt file off
        alpha := byteAt file (off + 3) })
  else none

/-- Row stride in bytes: `ceil((bitsPerPixel * width) / 32.f) * 4.f` from
the source.  For non-negative widths in the exactly-representable float
range this equals the integer ceiling below; a negative width (whose C++
stride would be negative, undefined at the `new char[rowSize]`) is clamped
through `Int.toNat`. -/
def rowSize_bytes (bpp : Nat) (width : Int) : Nat :=
  ((bpp * width.toNat + 31) / 32) * 4

/-- Bytes of one stored row: `file.seekg(pos); file.read(row, len)`. -/
def readRow (file : List Nat) (pos len : Nat) : List Nat :=
  (List.range len).map fun j => byteAt file (pos + j)

/-- The successive rows the per-row loop reads: the seek position starts at
`start` and advances by `rowOffset_bytes` (= `step`, negative when the file
stores rows top-down) after each row. -/
def readRows (file : List Nat) (start step : Int) (len n : Nat) :
    List (List Nat) :=
  match n with
  | 0 => []
  | m + 1 => readRow file start.toNat len :: readRows file (start + step) step len m

/-- The mask-building loop of `extractPalettedPixels`:
`for(i < bitsPerPixel) mask |= (0x01 << i)`. -/
def buildMask (bpp : Nat) : Nat :=
  (List.range bpp).foldl (fun m i => m ||| (1 <<< i)) 0

/-- The per-pixel loop of `extractPalettedPixels` over one row buffer.
State: pixels still to extract, current byte number, pixel slot within the
byte, and the current byte value (loaded from `row[byteNo]`).  Each step
first rolls over to the next byte when the slot count is exhausted, then
extracts the index at shift `bitsPerPixel * (numPixelsPerByte - 1 - slot)`
and looks it up in the palette; the source indexes `palette[index]` without
a bounds check (undefined behavior when out of range), embedded as the
`none` branch of `List.get?`. -/
def palettedRowGo (row : List Nat) (palette : List Color4) (bpp ppb mask : Nat) :
    (remaining byteNo bytePixelNo cur : Nat) → Option (List Color4)
  | 0, _, _, _ => some []
  | remaining + 1, byteNo, bytePixelNo, cur =>
    let st := if ppb ≤ bytePixelNo then
        (byteNo + 1, 0, row.getD (byteNo + 1) 0 % 256)
      else (byteNo, bytePixelNo, cur)
    let shift := bpp * (ppb - 1 - st.2.1)
    let index := (st.2.2 &&& (mask <<< shift)) >>> shift
    match palette.get? index with
    | none => none
    | some c =>
      (palettedRowGo row palette bpp ppb mask remaining st.1 (st.2.1 + 1) st.2.2).map
        (c :: ·)

/-- One row of paletted pixels: the loop starts at byte 0, slot 0, with
`row[0]` preloaded, and runs `width` iterations. -/
def palettedRow (row : List Nat) (palette : List Color4) (bpp width : Nat) :
    Option (List Color4) :=
  palettedRowGo row palette bpp (8 / bpp) (buildMask bpp) width 0 0 (row.getD 0 0 % 256)

/-- Method `Image::extractPalettedPixels`: builds the palette, computes the row
geometry (reading rows backward from the last one when the height is
negative, so the produced buffer is bottom-up either way), and unpacks each
row. -/
def extractPalettedPixels (file : List Nat) (fh : BitmapFileHeader)
    (ih : BitmapInfoHeader) : Option (List Color4) :=
  match extractColorPalette file ih.headerSize_bytes ih.numPaletteColors with
  | none => none
  | some palette =>
    let rowSize := rowSize_bytes ih.bitsPerPixel ih.bmpWidth_px
    let numRows := ih.bmpHeight_px.natAbs
    let isTopOrigin := ih.bmpHeight_px < 0
    let start : Int := if isTopOrigin then
        (fh.pixelOffset_bytes : Int) + ((numRows - 1 : Nat) : Int) * rowSize
      else (fh.pixelOffset_bytes : Int)
    let step : Int := if isTopOrigin then -(rowSize : Int) else (rowSize : Int)
    ((readRows file start step rowSize numRows).mapM fun row =>
        palettedRow row palette ih.bitsPerPixel ih.bmpWidth_px.toNat).map List.flatten

/-- The channel-shift scan of `extractPixels`:
`while((mask & (0x01 << shift)) == 0) ++shift;`.  The scan only terminates
when it reaches a set bit; a `uint32_t` mask has all its bits below 32, so
32 probes decide it, and a zero mask (for which the C++ loop never exits —
the shift eventually overflows the `int` shift width, undefined behavior)
is modelled as `none`. -/
def findShiftGo (mask : Nat) : (fuel s : Nat) → Option Nat
  | 0, _ => none
  | fuel + 1, s => if mask &&& (1 <<< s) == 0 then findShiftGo mask fuel (s + 1) else some s

/-- Shift of a channel mask: index of its lowest set bit, scanning up from
bit 0. -/
def findShift (mask : Nat) : Option Nat :=
  findShiftGo mask 32 0

/-- The guarded alpha scan of `extractPixels`: the shift scan runs only
under `if(infoHeader._alphaMask)`, so a zero alpha mask keeps the shift at
its initialisation value 0. -/
def alphaShiftOpt (alphaMask : Nat) : Option Nat :=
  if alphaMask == 0 then some 0 else findShift alphaMask

/-- The pixel-byte assembly loop of `extractPixels`: byte `k` of pixel `j`
(at `row[j * pixelSize + k]`) is OR-ed into bit position `8k` of the raw
pixel word. -/
def assemblePixel (row : List Nat) (j ps : Nat) : Nat :=
  (List.range ps).foldl (fun acc k => acc ||| ((row.getD (j * ps + k) 0 % 256) <<< (k * 8))) 0

/-- One channel of a direct pixel: `(rawPixelBytes & mask) >> shift`,
truncated to 8 bits by the `uint8_t` conversion. -/
def channel (raw mask shift : Nat) : Nat :=
  ((raw &&& mask) >>> shift) % 256

/-- One direct pixel: the four masked-and-shifted channels of the assembled
raw pixel word. -/
def directPixel (row : List Nat) (j ps : Nat) (ih : BitmapInfoHeader)
    (rs gs bs aSh : Nat) : Color4 :=
  let raw := assemblePixel row j ps
  { red := channel raw ih.redMask rs
    green := channel raw ih.greenMask gs
    blue := channel raw ih.blueMask bs
    alpha := channel raw ih.alphaMask aSh }

/-- Method `Image::extractPixels` (16/24/32-bit direct pixels): computes the row
geometry exactly as the paletted decoder, scans each mask for its shift
(the alpha scan is guarded by `if(infoHeader._alphaMask)`, so a zero alpha
mask keeps shift 0), then decodes `width` pixels from each row read. -/
def extractPixels (file : List Nat) (fh : BitmapFileHeader)
    (ih : BitmapInfoHeader) : Option (List Color4) :=
  let rowSize := rowSize_bytes ih.bitsPerPixel ih.bmpWidth_px
  let ps := ih.bitsPerPixel / 8
  let numRows := ih.bmpHeight_px.natAbs
  let isTopOrigin := ih.bmpHeight_px < 0
  let start : Int := if isTopOrigin then
      (fh.pixelOffset_bytes : Int) + ((numRows - 1 : Nat) : Int) * rowSize
    else (fh.pixelOffset_bytes : Int)
  let step : Int := if isTopOrigin then -(rowSize : Int) else (rowSize : Int)
  match findShift ih.redMask, findShift ih.greenMask, findShift ih.blueMask,
      alphaShiftOpt ih.alphaMask with
  | some rs, some gs, some bs, some aSh =>
    some ((readRows file start step rowSize numRows).flatMap fun row =>
      (List.range ih.bmpWidth_px.toNat).map fun j => directPixel row j ps ih rs gs bs aSh)
  | _, _, _, _ => none

/-- The `Image` fields the loader populates: the flat pixel buffer and the
width/height copied from the info header after extraction. -/
structure Image where
  pixels : List Color4
  width_px : Int
  height_px : Int
deriving DecidableEq, Repr

/-- The bits-per-pixel dispatch shared by every handled case of the
version switch in `Image::loadBmp`: depths up to 8 go to the paletted
decoder; 16 and 32 install the depth-specific default masks under `BI_RGB`
(honoring the header's own alpha mask for the 56/108/124-byte versions,
`V3_4_5`) or, under `BI_BITFIELDS` with a 40-byte header (neither `V2` nor
`V3_4_5`), read the appended mask block; 24 always uses the fixed default
masks; any other depth runs no extraction and leaves the pixel vector
empty. -/
def pxDispatch (file : List Nat) (fileHeader : BitmapFileHeader)
    (ih : BitmapInfoHeader) (V2 V3_4_5 : Bool) : Option (List Color4) :=
  if ih.bitsPerPixel ≤ 8 then
    extractPalettedPixels file fileHeader ih
  else if ih.bitsPerPixel == 16 then
    if ih.compression == 0 then
      extractPixels file fileHeader { ih with
        redMask := 0x7C00, greenMask := 0x3E0, blueMask := 0x1F,
        alphaMask := if V3_4_5 then ih.alphaMask else 0x8000 }
    else
      let ih' := if !V2 && !V3_4_5 then
          let m := extractAppendedRGBMasks file
          { ih with redMask := m.1, greenMask := m.2.1, blueMask := m.2.2 }
        else ih
      extractPixels file fileHeader ih'
  else if ih.bitsPerPixel == 24 then
    extractPixels file fileHeader { ih with
      redMask := 0xFF0000, greenMask := 0xFF00, blueMask := 0xFF, alphaMask := 0 }
  else if ih.bitsPerPixel == 32 then
    if ih.compression == 0 then
      extractPixels file fileHeader { ih with
        redMask := 0xFF0000, greenMask := 0xFF00, blueMask := 0xFF,
        alphaMask := if V3_4_5 then ih.alphaMask else 0xFF000000 }
    else
      let ih' := if !V2 && !V3_4_5 then
          let m := extractAppendedRGBMasks file
          { ih with redMask := m.1, greenMask := m.2.1, blueMask := m.2.2 }
        else ih
      extractPixels file fileHeader ih'
  else some []

/-- Method `Image::loadBmp`.  Input `none` models a file that failed to open (the
`!file` branch).  Result `some (.error (-1))` is a `return -1`,
`some (.ok img)` is a `return 0` with the populated fields, and `none`
marks executions the C++ never completes (non-terminating scans or loops,
out-of-bounds palette indexing).  The version switch falls through from
largest to smallest size: 124/108 check the color-space magic, 56/108/124
set `V3_4_5`, 52 sets `V2`, and every handled size runs the bits-per-pixel
dispatch (`pxDispatch`); a size with no case (12 included) skips extraction
entirely and still returns 0. -/
def loadBmp (fileOpt : Option (List Nat)) : Option (Except Int Image) :=
  match fileOpt with
  | none => some (.error (-1))
  | some file =>
    let fileHeader := extractFileHeader file
    if fileHeader.fileMagic != 0x4d42 then some (.error (-1))
    else
      let ih := extractInfoHeader file
      if ih.compression != 0 && ih.compression != 3 then some (.error (-1))
      else if (ih.headerSize_bytes == 108 || ih.headerSize_bytes == 124)
          && ih.colorSpaceMagic != 0x73524742 then some (.error (-1))
      else if handledHeaderSizes.contains ih.headerSize_bytes then
        let V3_4_5 := ih.headerSize_bytes == 56 || ih.headerSize_bytes == 108
          || ih.headerSize_bytes == 124
        let V2 := ih.headerSize_bytes == 52
        (pxDispatch file fileHeader ih V2 V3_4_5).map fun pixels =>
          .ok { pixels := pixels, width_px := ih.bmpWidth_px, height_px := ih.bmpHeight_px }
      else
        some (.ok { pixels := [], width_px := ih.bmpWidth_px, height_px := ih.bmpHeight_px })

/-! ## Concrete inputs used by evaluations and witnesses -/

/-- Valid 'B','M' magic, pixel offset 62, then an info header whose size
field is 12 (`BITMAPCOREHEADER`, named in the source's comments but given
no case in its switches), remaining header bytes zero. -/
def fileHeaderSize12 : List Nat :=
  [0x42, 0x4d, 0, 0, 0, 0, 0, 0, 0, 0, 62, 0, 0, 0] ++ [12, 0, 0, 0] ++ List.replicate 48 0

/-- A buffer whose first two bytes are not 'B','M'. -/
def fileBadMagic : List Nat := [0, 0, 0, 0, 0, 0, 0, 0, 0, 0, 0, 0, 0, 0]

/-- Valid magic, 40-byte info header declaring a 1×1 8-bit image with
compression mode 1 (`BI_RLE8`). -/
def fileRle8 : List Nat :=
  [0x42, 0x4d, 0, 0, 0, 0, 0, 0, 0, 0, 54, 0, 0, 0] ++
  ([40, 0, 0, 0] ++ [1, 0, 0, 0] ++ [1, 0, 0, 0] ++ [1, 0] ++ [8, 0] ++ [1, 0, 0, 0] ++
    List.replicate 20 0)

/-- Scenario A file: 14-byte file header (pixel offset 70), 40-byte info
header (8×1, 2 bits per pixel, no compression, 4 palette colors), a 16-byte
palette whose entry `i` has blue = red = `i`, then the single padded row
`[0x12, 0, 0, 0]` (`0x12 = 0b00010010`). -/
def fileScenarioA : List Nat :=
  [0x42, 0x4d, 0, 0, 0, 0, 0, 0, 0, 0, 70, 0, 0, 0] ++
  ([40, 0, 0, 0] ++ [8, 0, 0, 0] ++ [1, 0, 0, 0] ++ [1, 0] ++ [2, 0] ++ [0, 0, 0, 0] ++
    [0, 0, 0, 0] ++ [0, 0, 0, 0] ++ [0, 0, 0, 0] ++ [4, 0, 0, 0] ++ [0, 0, 0, 0]) ++
  [0, 0, 0, 0, 1, 0, 1, 0, 2, 0, 2, 0, 3, 0, 3, 0] ++
  [0x12, 0, 0, 0]

/-- The file header of `fileScenarioA`. -/
def fhScenarioA : BitmapFileHeader :=
  { fileMagic := 0x4d42, fileSize := 0, pixelOffset_bytes := 70 }

/-- The info header of `fileScenarioA`. -/
def ihScenarioA : BitmapInfoHeader :=
  { headerSize_bytes := 40, bmpWidth_px := 8, bmpHeight_px := 1, numColorPlanes := 1,
    bitsPerPixel := 2, compression := 0, rawImageSize_bytes := 0,
    horizontalResolution_pxPm := 0, verticalResolution_pxPm := 0,
    numPaletteColors := 4, numImportantColors := 0,
    redMask := 0, greenMask := 0, blueMask := 0, alphaMask := 0, colorSpaceMagic := 0 }

/-- The palette of `fileScenarioA`: entry `i` is `(i, 0, i, 0)`. -/
def paletteScenarioA : List Color4 :=
  [{ red := 0, green := 0, blue := 0, alpha := 0 },
   { red := 1, green := 0, blue := 1, alpha := 0 },
   { red := 2, green := 0, blue := 2, alpha := 0 },
   { red := 3, green := 0, blue := 3, alpha := 0 }]

/-- A complete 1×1 24-bit file with height −1 (top-down storage): one pixel
row `[0x10, 0x20, 0x30]` plus one padding byte at pixel offset 54. -/
def fileTopDown1x1 : List Nat :=
  [0x42, 0x4d, 0, 0, 0, 0, 0, 0, 0, 0, 54, 0, 0, 0] ++
  ([40, 0, 0, 0] ++ [1, 0, 0, 0] ++ [0xFF, 0xFF, 0xFF, 0xFF] ++ [1, 0] ++ [24, 0] ++
    [0, 0, 0, 0] ++ List.replicate 20 0) ++
  [0x10, 0x20, 0x30, 0]

/-- The image decoded from `fileTopDown1x1`: one RGBA pixel, exposed
height −1. -/
def imgTopDown1x1 : Image :=
  { pixels := [{ red := 0x30, green := 0x20, blue := 0x10, alpha := 0 }],
    width_px := 1, height_px := -1 }

/-- Same as `fileTopDown1x1` but with height +1 (bottom-up storage). -/
def fileBottomUp1x1 : List Nat :=
  [0x42, 0x4d, 0, 0, 0, 0, 0, 0, 0, 0, 54, 0, 0, 0] ++
  ([40, 0, 0, 0] ++ [1, 0, 0, 0] ++ [1, 0, 0, 0] ++ [1, 0] ++ [24, 0] ++
    [0, 0, 0, 0] ++ List.replicate 20 0) ++
  [0x10, 0x20, 0x30, 0]

/-- The image decoded from `fileBottomUp1x1`. -/
def imgBottomUp1x1 : Image :=
  { pixels := [{ red := 0x30, green := 0x20, blue := 0x10, alpha := 0 }],
    width_px := 1, height_px := 1 }

/-! ## C1 -/

/-- C1: the claim says a file whose info-header size field is outside
{40, 52, 56, 108, 124} fails with `UnsupportedHeaderVersion`.  The code has
no default case in either header-size switch: on `fileHeaderSize12` (size
field 12) `loadBmp` runs no extraction, stores the zeroed width and height,
and returns 0 — success with an empty 0×0 image, reporting no error at
all. -/
theorem c1_unsupported_header_size_returns_success :
    loadBmp (some fileHeaderSize12) =
      some (Except.ok { pixels := [], width_px := 0, height_px := 0 }) := by
  rfl

/-! ## C7 -/

/-- C7: the claim says each little-endian extraction function returns the
little-endian value of the buffer on both little-endian and big-endian
hosts.  On a little-endian host it does (first two conjuncts), but on a
big-endian host the buggy `reverseBytes` (its write-back goes to
`bytes[count - i]` instead of `bytes[count - 1 - i]`) leaves the buffer
`[0x01, 0x02]` as `[0x02, 0x02]`, so the 16-bit extraction returns 0x0202
instead of the little-endian value 0x0201; the 32-bit extraction fails the
same way on `[1, 2, 3, 4]`. -/
theorem c7_big_endian_host_extraction_wrong :
    extractLittleEndianUint16 true [0x01, 0x02] = 0x0201 ∧
    extractLittleEndianUint32 true [1, 2, 3, 4] = leValue [1, 2, 3, 4] 4 ∧
    extractLittleEndianUint16 false [0x01, 0x02] = 0x0202 ∧
    extractLittleEndianUint16 false [0x01, 0x02] ≠ 0x0201 ∧
    extractLittleEndianUint32 false [1, 2, 3, 4] ≠ leValue [1, 2, 3, 4] 4 := by
  decide

/-! ## C5 -/

/-- C5 counterexample: the claim says a declared palette-color count of 0
means `2 ^ bitsPerPixel` entries.  On a 1-bit-per-pixel header declaring 0
palette colors the code's palette loop runs zero times: the palette built
is empty, not the claimed `2 ^ 1 = 2` entries. -/
theorem c5_declared_zero_yields_empty_palette :
    (extractColorPalette fileScenarioA 40 0).map List.length = some 0 ∧
    (extractColorPalette fileScenarioA 40 0).map List.length ≠ some (2 ^ 1) := by
  decide

/-- C5 (amended): the palette built by `extractColorPalette` contains
exactly the declared palette-color count of entries whenever that count is
below 256; a declared count of 0 yields an empty palette (the "0 means
`2 ^ bitsPerPixel`" convention is not implemented), and a declared count of
256 or more never terminates (the `uint8_t` loop counter cannot reach the
bound), modelled as `none`. -/
theorem c5_palette_size_eq_declared_count :
    ∀ (file : List Nat) (hs count : Nat),
      (count < 256 → (extractColorPalette file hs count).map List.length = some count) ∧
      (256 ≤ count → extractColorPalette file hs count = none) := by
  intro file hs count
  constructor
  · intro h
    simp [extractColorPalette, h]
  · intro h
    simp [extractColorPalette, Nat.not_lt.mpr h]

/-- Witness for C5 (amended) at declared counts 5 and 300. -/
theorem c5_palette_size_eq_declared_count_witness :
    ((5 : Nat) < 256 ∧ (extractColorPalette fileScenarioA 40 5).map List.length = some 5) ∧
    ((256 : Nat) ≤ 300 ∧ extractColorPalette fileScenarioA 40 300 = none) :=
  ⟨⟨by decide, (c5_palette_size_eq_declared_count fileScenarioA 40 5).1 (by decide)⟩,
   ⟨by decide, (c5_palette_size_eq_declared_count fileScenarioA 40 300).2 (by decide)⟩⟩

/-! ## C8 -/

/-- C8 counterexample: the claim says every decode failure is reported as a
discriminated result identifying which of the five errors occurred.  A
bad-magic file and an RLE8-compressed file — two different error classes —
return the one undiscriminated failure code −1, so the result identifies
nothing; and an unsupported header size (the fifth class) is not reported
as a failure at all but as success with an empty image. -/
theorem c8_failure_results_identical :
    loadBmp (some fileBadMagic) = some (Except.error (-1)) ∧
    loadBmp (some fileRle8) = some (Except.error (-1)) ∧
    loadBmp (some fileBadMagic) = loadBmp (some fileRle8) ∧
    loadBmp (some fileHeaderSize12) =
      some (Except.ok { pixels := [], width_px := 0, height_px := 0 }) :=
  ⟨rfl, rfl, rfl, rfl⟩

/-- C8 (amended): every decode failure the code detects — unreadable file,
invalid magic, unsupported compression, unsupported color space — is
reported to the caller as the single failure code −1, indistinguishable
across the classes; no failure terminates the process (each is an ordinary
return).  An unsupported header size is not reported as a failure
(see the C1 theorem). -/
theorem c8_all_failures_return_minus_one :
    ∀ file : List Nat,
      loadBmp none = some (Except.error (-1)) ∧
      ((extractFileHeader file).fileMagic ≠ 0x4d42 →
        loadBmp (some file) = some (Except.error (-1))) ∧
      ((extractFileHeader file).fileMagic = 0x4d42 →
        (extractInfoHeader file).compression ≠ 0 →
        (extractInfoHeader file).compression ≠ 3 →
        loadBmp (some file) = some (Except.error (-1))) ∧
      ((extractFileHeader file).fileMagic = 0x4d42 →
        (extractInfoHeader file).compression = 0 ∨ (extractInfoHeader file).compression = 3 →
        (extractInfoHeader file).headerSize_bytes = 108 ∨
          (extractInfoHeader file).headerSize_bytes = 124 →
        (extractInfoHeader file).colorSpaceMagic ≠ 0x73524742 →
        loadBmp (some file) = some (Except.error (-1))) := by
  intro file
  refine ⟨rfl, ?_, ?_, ?_⟩
  · intro h
    simp [loadBmp, bne_iff_ne, h]
  · intro hm hc0 hc3
    simp [loadBmp, bne_iff_ne, hm, hc0, hc3]
  · intro hm hc hs hcs
    rcases hc with hc | hc <;> rcases hs with hs | hs <;>
      simp [loadBmp, bne_iff_ne, hm, hc, hs, hcs]

/-- Witness for C8 (amended): the bad-magic clause applied to
`fileBadMagic`. -/
theorem c8_all_failures_return_minus_one_witness :
    (extractFileHeader fileBadMagic).fileMagic ≠ 0x4d42 ∧
    loadBmp (some fileBadMagic) = some (Except.error (-1)) :=
  ⟨by decide, (c8_all_failures_return_minus_one fileBadMagic).2.1 (by decide)⟩

/-! ## Shift-scan correctness (shared by C6 and C10) -/

/-- The loop condition `(mask & (0x01 << shift)) == 0` holds exactly when
bit `shift` of the mask is clear. -/
theorem and_one_shiftLeft_eq_zero_iff (n i : Nat) :
    n &&& (1 <<< i) = 0 ↔ n.testBit i = false := by
  rw [Nat.shiftLeft_eq, one_mul, Nat.and_two_pow]
  simp [Nat.testBit]

/-- If the scanned window contains a set bit and every bit below the start
of the window is clear, the scan returns the lowest set bit. -/
theorem findShiftGo_some (m : Nat) :
    ∀ fuel s : Nat, (∀ t, t < s → m.testBit t = false) →
      (∃ t, s ≤ t ∧ t < s + fuel ∧ m.testBit t = true) →
      ∃ r, findShiftGo m fuel s = some r ∧ m.testBit r = true ∧
        ∀ t, t < r → m.testBit t = false := by
  intro fuel
  induction fuel with
  | zero =>
    intro s _ hex
    obtain ⟨t, h1, h2, _⟩ := hex
    omega
  | succ fuel ih =>
    intro s hlow hex
    by_cases hbit : m.testBit s = true
    · refine ⟨s, ?_, hbit, hlow⟩
      have hcond : (m &&& (1 <<< s) == 0) = false := by
        rw [beq_eq_false_iff_ne]
        intro h0
        rw [(and_one_shiftLeft_eq_zero_iff m s).mp h0] at hbit
        exact Bool.false_ne_true hbit
      simp [findShiftGo, hcond]
    · have hbit' : m.testBit s = false := by
        cases h : m.testBit s
        · rfl
        · exact absurd h hbit
      have hcond : (m &&& (1 <<< s) == 0) = true := by
        rw [beq_iff_eq]
        exact (and_one_shiftLeft_eq_zero_iff m s).mpr hbit'
      have hlow' : ∀ t, t < s + 1 → m.testBit t = false := by
        intro t ht
        rcases Nat.lt_or_ge t s with h | h
        · exact hlow t h
        · have : t = s := by omega
          rw [this]; exact hbit'
      have hex' : ∃ t, s + 1 ≤ t ∧ t < s + 1 + fuel ∧ m.testBit t = true := by
        obtain ⟨t, h1, h2, h3⟩ := hex
        refine ⟨t, ?_, by omega, h3⟩
        rcases Nat.lt_or_ge s t with h | h
        · omega
        · have : t = s := by omega
          rw [this] at h3
          exact absurd h3 (by rw [hbit']; exact Bool.false_ne_true)
      obtain ⟨r, hr, hr1, hr2⟩ := ih (s + 1) hlow' hex'
      exact ⟨r, by simp [findShiftGo, hcond, hr], hr1, hr2⟩

/-- For a non-zero mask below `2 ^ 32` the scan terminates within its
32-probe budget and returns the index of the lowest set bit. -/
theorem findShift_spec (m : Nat) (h0 : 0 < m) (h32 : m < 2 ^ 32) :
    ∃ s, findShift m = some s ∧ m.testBit s = true ∧
      ∀ t, t < s → m.testBit t = false := by
  obtain ⟨i, hi⟩ := Nat.ne_zero_implies_bit_true (Nat.pos_iff_ne_zero.mp h0)
  have hle : 2 ^ i ≤ m := Nat.testBit_implies_ge hi
  have hi32 : i < 32 := by
    have : 2 ^ i < 2 ^ 32 := lt_of_le_of_lt hle h32
    exact (Nat.pow_lt_pow_iff_right (by norm_num)).mp this
  exact findShiftGo_some m 32 0 (by omega) ⟨i, Nat.zero_le i, by omega, hi⟩

/-- The scan succeeds on any non-zero 32-bit mask. -/
theorem findShift_isSome (m : Nat) (h0 : 0 < m) (h32 : m < 2 ^ 32) :
    (findShift m).isSome := by
  obtain ⟨s, hs, -, -⟩ := findShift_spec m h0 h32
  rw [hs]; rfl

/-- The alpha scan is guarded: a zero alpha mask yields shift 0 without
scanning. -/
theorem alphaShiftOpt_isSome (am : Nat) (h32 : am < 2 ^ 32) :
    ∃ a, alphaShiftOpt am = some a := by
  by_cases h : am = 0
  · exact ⟨0, by simp [alphaShiftOpt, h]⟩
  · obtain ⟨s, hs, -, -⟩ := findShift_spec am (Nat.pos_of_ne_zero h) h32
    exact ⟨s, by simp [alphaShiftOpt, h, hs]⟩

/-! ## C6 -/

/-- C6: for every non-zero 32-bit channel mask the shift computed by the
scan of `extractPixels` is the index of the mask's lowest set bit; and when
the alpha mask is zero, the guarded scan keeps the alpha shift at 0 and the
alpha channel of every decoded pixel is zero. -/
theorem c6_shift_is_lowest_set_bit :
    (∀ m : Nat, 0 < m → m < 2 ^ 32 →
      ∃ s, findShift m = some s ∧ m.testBit s = true ∧
        ∀ t, t < s → m.testBit t = false) ∧
    (alphaShiftOpt 0 = some 0) ∧
    (∀ (row : List Nat) (j ps : Nat) (ih : BitmapInfoHeader) (rs gs bs aSh : Nat),
      ih.alphaMask = 0 → (directPixel row j ps ih rs gs bs aSh).alpha = 0) := by
  refine ⟨findShift_spec, by simp [alphaShiftOpt], ?_⟩
  intro row j ps ih rs gs bs aSh h
  simp [directPixel, channel, h]

/-- Witness for C6 at the default 16-bit red mask 0x7C00 (lowest set bit
10) and a concrete zero-alpha-mask pixel. -/
theorem c6_shift_is_lowest_set_bit_witness :
    ((0 : Nat) < 0x7C00 ∧ (0x7C00 : Nat) < 2 ^ 32) ∧
    (∃ s, findShift 0x7C00 = some s ∧ (0x7C00 : Nat).testBit s = true ∧
      ∀ t, t < s → (0x7C00 : Nat).testBit t = false) ∧
    (ihScenarioA.alphaMask = 0 ∧
      (directPixel [1, 2] 0 2 ihScenarioA 0 0 0 0).alpha = 0) :=
  ⟨⟨by decide, by decide⟩,
   c6_shift_is_lowest_set_bit.1 0x7C00 (by decide) (by decide),
   ⟨rfl, c6_shift_is_lowest_set_bit.2.2 [1, 2] 0 2 ihScenarioA 0 0 0 0 rfl⟩⟩

/-! ## C10 -/

/-- C10: under the precondition that the red, green and blue channel masks
are non-zero (32-bit) values, every shift scan of `extractPixels`
terminates and the direct decode produces a result (the alpha scan is
guarded by the zero test, so it never diverges). -/
theorem c10_direct_decode_terminates :
    ∀ (file : List Nat) (fh : BitmapFileHeader) (ih : BitmapInfoHeader),
      0 < ih.redMask → ih.redMask < 2 ^ 32 →
      0 < ih.greenMask → ih.greenMask < 2 ^ 32 →
      0 < ih.blueMask → ih.blueMask < 2 ^ 32 →
      ih.alphaMask < 2 ^ 32 →
      (extractPixels file fh ih).isSome := by
  intro file fh ih hr hr32 hg hg32 hb hb32 ha32
  obtain ⟨rs, hrs, -, -⟩ := findShift_spec ih.redMask hr hr32
  obtain ⟨gs, hgs, -, -⟩ := findShift_spec ih.greenMask hg hg32
  obtain ⟨bs, hbs, -, -⟩ := findShift_spec ih.blueMask hb hb32
  obtain ⟨aSh, ha⟩ := alphaShiftOpt_isSome ih.alphaMask ha32
  simp [extractPixels, hrs, hgs, hbs, ha]

/-- Witness for C10 at concrete non-zero masks 1, 2, 4 and alpha 0. -/
theorem c10_direct_decode_terminates_witness :
    ((0 : Nat) < 1 ∧ (1 : Nat) < 2 ^ 32 ∧ (0 : Nat) < 2 ∧ (2 : Nat) < 2 ^ 32 ∧
      (0 : Nat) < 4 ∧ (4 : Nat) < 2 ^ 32 ∧ (0 : Nat) < 2 ^ 32) ∧
    (extractPixels [] fhScenarioA
      { ihScenarioA with redMask := 1, greenMask := 2, blueMask := 4 }).isSome :=
  ⟨by decide,
   c10_direct_decode_terminates [] fhScenarioA
     { ihScenarioA with redMask := 1, greenMask := 2, blueMask := 4 }
     (by decide) (by decide) (by decide) (by decide) (by decide) (by decide) (by decide)⟩

/-! ## Bit-packing arithmetic (shared by C2 and C9) -/

/-- Shifting left then right by the same amount is the identity. -/
theorem shiftLeft_shiftRight (m s : Nat) : (m <<< s) >>> s = m := by
  rw [Nat.shiftLeft_eq, Nat.shiftRight_eq_div_pow]
  exact Nat.mul_div_cancel m (Nat.pos_pow_of_pos s (by norm_num))

/-- The index extracted by `(byte & (mask << shift)) >> shift` never
exceeds the mask. -/
theorem masked_shift_le (x m s : Nat) : (x &&& (m <<< s)) >>> s ≤ m := by
  have h1 : x &&& (m <<< s) ≤ m <<< s := Nat.and_le_right
  have h2 : (x &&& (m <<< s)) >>> s ≤ (m <<< s) >>> s := by
    simp only [Nat.shiftRight_eq_div_pow]
    exact Nat.div_le_div_right h1
  rwa [shiftLeft_shiftRight] at h2

/-- Masking at a shift and then shifting down is masking the shifted
value. -/
theorem masked_shift_eq (x m s : Nat) :
    (x &&& (m <<< s)) >>> s = (x >>> s) &&& m := by
  apply Nat.eq_of_testBit_eq
  intro i
  simp [Nat.testBit_shiftRight, Nat.testBit_and, Nat.testBit_shiftLeft]

/-- A block of ones extended by the next power of two is the next block of
ones. -/
theorem two_pow_sub_one_or_two_pow (n : Nat) :
    (2 ^ n - 1) ||| 2 ^ n = 2 ^ (n + 1) - 1 := by
  apply Nat.eq_of_testBit_eq
  intro i
  simp only [Nat.testBit_or, Nat.testBit_two_pow_sub_one, Nat.testBit_two_pow]
  rcases Nat.lt_trichotomy i n with h | h | h
  · have h1 : i < n + 1 := by omega
    simp [h, h1]
  · subst h
    simp
  · have h1 : ¬ i < n := by omega
    have h2 : n ≠ i := by omega
    have h3 : ¬ i < n + 1 := by omega
    simp [h1, h2, h3]

/-- The OR-accumulating mask loop, with a general accumulator. -/
theorem buildMask_go (n : Nat) :
    ∀ acc : Nat, (List.range n).foldl (fun m i => m ||| (1 <<< i)) acc = acc ||| (2 ^ n - 1) := by
  induction n with
  | zero => intro acc; simp
  | succ n ih =>
    intro acc
    rw [List.range_succ, List.foldl_append, ih acc]
    simp only [List.foldl_cons, List.foldl_nil]
    rw [Nat.shiftLeft_eq, one_mul, Nat.or_assoc, two_pow_sub_one_or_two_pow]

/-- The mask built by `for(i < bitsPerPixel) mask |= (0x01 << i)` is the
low block of `bitsPerPixel` ones. -/
theorem buildMask_eq (bpp : Nat) : buildMask bpp = 2 ^ bpp - 1 := by
  rw [buildMask, buildMask_go bpp 0, Nat.zero_or]

/-! ## C9 -/

/-- Every palette lookup performed by the row loop is in bounds whenever
the palette has more entries than the extraction mask's value. -/
theorem palettedRowGo_isSome (row : List Nat) (palette : List Color4)
    (bpp ppb mask : Nat) (hlen : mask < palette.length) :
    ∀ (r byteNo slot cur : Nat),
      (palettedRowGo row palette bpp ppb mask r byteNo slot cur).isSome := by
  intro r
  induction r with
  | zero => intro byteNo slot cur; simp [palettedRowGo]
  | succ r ih =>
    intro byteNo slot cur
    simp only [palettedRowGo]
    generalize (if ppb ≤ slot then (byteNo + 1, 0, row.getD (byteNo + 1) 0 % 256)
      else (byteNo, slot, cur)) = st
    obtain ⟨bN, sN, cN⟩ := st
    have hidx : (cN &&& (mask <<< (bpp * (ppb - 1 - sN)))) >>> (bpp * (ppb - 1 - sN))
        < palette.length :=
      lt_of_le_of_lt (masked_shift_le _ _ _) hlen
    cases hg : palette.get?
        ((cN &&& (mask <<< (bpp * (ppb - 1 - sN)))) >>> (bpp * (ppb - 1 - sN))) with
    | none =>
      rw [List.get?_eq_none] at hg
      omega
    | some c =>
      simpa using ih bN (sN + 1) cN

/-- C9: paletted decoding indexes the palette without a bounds check; under
the precondition that the palette has at least `2 ^ bitsPerPixel` entries,
every extracted index — masked to `bitsPerPixel` bits, hence at most
`2 ^ bitsPerPixel - 1` — is within bounds, so the `none` branch of the
embedded `Option`-returning lookup is unreachable and the row decode always
produces a value. -/
theorem c9_palette_lookup_never_fails :
    ∀ (row : List Nat) (palette : List Color4) (bpp : Nat),
      bpp = 1 ∨ bpp = 2 ∨ bpp = 4 ∨ bpp = 8 →
      2 ^ bpp ≤ palette.length →
      ∀ width : Nat, (palettedRow row palette bpp width).isSome := by
  intro row palette bpp _ hlen width
  have hmask : buildMask bpp < palette.length := by
    rw [buildMask_eq]
    have h1 : (1 : Nat) ≤ 2 ^ bpp := Nat.one_le_two_pow
    omega
  exact palettedRowGo_isSome row palette bpp (8 / bpp) (buildMask bpp) hmask width 0 0 _

/-- Witness for C9: the Scenario A row against its 4-entry palette at 2
bits per pixel. -/
theorem c9_palette_lookup_never_fails_witness :
    ((2 : Nat) = 1 ∨ (2 : Nat) = 2 ∨ (2 : Nat) = 4 ∨ (2 : Nat) = 8) ∧
    2 ^ 2 ≤ paletteScenarioA.length ∧
    (palettedRow [0x12, 0, 0, 0] paletteScenarioA 2 8).isSome :=
  ⟨by decide, by decide,
   c9_palette_lookup_never_fails [0x12, 0, 0, 0] paletteScenarioA 2 (by decide) (by decide) 8⟩

/-! ## C2 -/

/-- Spec-side index formula, written from the specification's words: for
pixel `i` within a row, the containing byte is `i / (8/bitsPerPixel)`, the
intra-byte slot is `i mod (8/bitsPerPixel)`, the bit shift is
`bitsPerPixel * (slotsPerByte - 1 - slot)`, and the `bitsPerPixel`-wide
mask is applied at that shift.  Stated for comparison against the loop the
source actually runs. -/
def specRowIndex (row : List Nat) (bpp i : Nat) : Nat :=
  ((row.getD (i / (8 / bpp)) 0 % 256) >>> (bpp * ((8 / bpp) - 1 - i % (8 / bpp)))) &&&
    (2 ^ bpp - 1)

/-- The per-pixel loop maintains: after `k` extractions the byte number is
`k / slotsPerByte` and the slot is `k mod slotsPerByte`, so pixel `k` is
extracted from byte `k / slotsPerByte` at shift
`bitsPerPixel * (slotsPerByte - 1 - k mod slotsPerByte)`. -/
theorem palettedRowGo_eq_spec (row : List Nat) (palette : List Color4) (bpp ppb mask : Nat)
    (hppb : 0 < ppb) :
    ∀ (r byteNo slot : Nat), slot ≤ ppb →
      palettedRowGo row palette bpp ppb mask r byteNo slot (row.getD byteNo 0 % 256) =
      (List.range' (byteNo * ppb + slot) r).mapM
        (fun i => palette.get?
          (((row.getD (i / ppb) 0 % 256) >>> (bpp * (ppb - 1 - i % ppb))) &&& mask)) := by
  intro r
  induction r with
  | zero => intro byteNo slot _; rfl
  | succ r ih =>
    intro byteNo slot hslot
    rw [List.range'_succ, List.mapM_cons]
    by_cases hroll : ppb ≤ slot
    · have hse : slot = ppb := le_antisymm hslot hroll
      rw [hse]
      have hdiv : (byteNo * ppb + ppb) / ppb = byteNo + 1 := by
        rw [show byteNo * ppb + ppb = (byteNo + 1) * ppb by ring]
        exact Nat.mul_div_cancel _ hppb
      have hmod : (byteNo * ppb + ppb) % ppb = 0 := by
        rw [show byteNo * ppb + ppb = (byteNo + 1) * ppb by ring]
        exact Nat.mul_mod_left _ _
      simp only [palettedRowGo, if_pos (le_refl ppb)]
      rw [masked_shift_eq]
      simp only [hdiv, hmod, Nat.zero_add]
      have hrec := ih (byteNo + 1) 1 (by omega)
      rw [show (byteNo + 1) * ppb + 1 = byteNo * ppb + ppb + 1 by ring] at hrec
      cases hg : palette.get?
          (((row.getD (byteNo + 1) 0 % 256) >>> (bpp * (ppb - 1 - 0))) &&& mask) with
      | none => simp
      | some c =>
        simp only [Option.some_bind]
        rw [← hrec]
        cases palettedRowGo row palette bpp ppb mask r (byteNo + 1) 1
            (row.getD (byteNo + 1) 0 % 256) <;> simp
    · have hlt : slot < ppb := lt_of_not_ge hroll
      have hdiv : (byteNo * ppb + slot) / ppb = byteNo := by
        rw [Nat.add_comm, Nat.add_mul_div_right _ _ hppb, Nat.div_eq_of_lt hlt]
        omega
      have hmod : (byteNo * ppb + slot) % ppb = slot := by
        rw [Nat.add_comm, Nat.add_mul_mod_self_right, Nat.mod_eq_of_lt hlt]
      simp only [palettedRowGo, if_neg hroll]
      rw [masked_shift_eq]
      simp only [hdiv, hmod]
      have hrec := ih byteNo (slot + 1) (by omega)
      rw [show byteNo * ppb + (slot + 1) = byteNo * ppb + slot + 1 by ring] at hrec
      cases hg : palette.get?
          (((row.getD byteNo 0 % 256) >>> (bpp * (ppb - 1 - slot))) &&& mask) with
      | none => simp
      | some c =>
        simp only [Option.some_bind]
        rw [← hrec]
        cases palettedRowGo row palette bpp ppb mask r byteNo (slot + 1)
            (row.getD byteNo 0 % 256) <;> simp

/-- C2: for paletted images, pixel `i` of a row is extracted from byte
`i / (8/bitsPerPixel)` at shift
`bitsPerPixel * (slotsPerByte - 1 - i mod slotsPerByte)` under the
`bitsPerPixel`-wide mask (first conjunct, the loop versus the
specification's closed formula); and the concrete Scenario A file — 8×1 at
2 bits per pixel, first data byte `0b00010010` — decodes its first four
pixels to palette entries 0, 1, 0, 2, the leftmost pixel coming from the
most-significant bits (second conjunct). -/
theorem c2_paletted_bit_packing :
    (∀ (row : List Nat) (palette : List Color4) (bpp : Nat),
      bpp = 1 ∨ bpp = 2 ∨ bpp = 4 ∨ bpp = 8 →
      ∀ width : Nat,
        palettedRow row palette bpp width =
          (List.range width).mapM (fun i => palette.get? (specRowIndex row bpp i))) ∧
    extractPalettedPixels fileScenarioA fhScenarioA ihScenarioA =
      some [{ red := 0, green := 0, blue := 0, alpha := 0 },
            { red := 1, green := 0, blue := 1, alpha := 0 },
            { red := 0, green := 0, blue := 0, alpha := 0 },
            { red := 2, green := 0, blue := 2, alpha := 0 },
            { red := 0, green := 0, blue := 0, alpha := 0 },
            { red := 0, green := 0, blue := 0, alpha := 0 },
            { red := 0, green := 0, blue := 0, alpha := 0 },
            { red := 0, green := 0, blue := 0, alpha := 0 }] := by
  constructor
  · intro row palette bpp hbpp width
    have hppb : 0 < 8 / bpp := by
      rcases hbpp with rfl | rfl | rfl | rfl <;> decide
    rw [palettedRow,
      palettedRowGo_eq_spec row palette bpp (8 / bpp) (buildMask bpp) hppb width 0 0
        (Nat.zero_le _)]
    simp [specRowIndex, buildMask_eq, List.range_eq_range']
  · decide

/-- Witness for C2's quantified conjunct at 2 bits per pixel on the
Scenario A row. -/
theorem c2_paletted_bit_packing_witness :
    ((2 : Nat) = 1 ∨ (2 : Nat) = 2 ∨ (2 : Nat) = 4 ∨ (2 : Nat) = 8) ∧
    palettedRow [0x12, 0, 0, 0] paletteScenarioA 2 8 =
      (List.range 8).mapM (fun i => paletteScenarioA.get? (specRowIndex [0x12, 0, 0, 0] 2 i)) :=
  ⟨by decide,
   c2_paletted_bit_packing.1 [0x12, 0, 0, 0] paletteScenarioA 2 (by decide) 8⟩

/-! ## C3 -/

/-- Reading below the length of the left part of an appended buffer only
sees the left part. -/
theorem byteAt_append_left (pre X : List Nat) (k : Nat) (hk : k < pre.length) :
    byteAt (pre ++ X) k = byteAt pre k := by
  unfold byteAt
  rw [List.getD_append _ _ _ _ hk]

/-- The palette lives entirely inside the shared file prefix, so it is
independent of the pixel data that follows. -/
theorem extractColorPalette_shared_region (pre X Y : List Nat) (hs count : Nat)
    (hbound : 14 + hs + 4 * count ≤ pre.length) :
    extractColorPalette (pre ++ X) hs count = extractColorPalette (pre ++ Y) hs count := by
  unfold extractColorPalette
  by_cases h : count < 256
  · rw [if_pos h, if_pos h]
    congr 1
    apply List.map_congr_left
    intro i hi
    have hi' : i < count := List.mem_range.mp hi
    have e : ∀ k, k < pre.length → byteAt (pre ++ X) k = byteAt (pre ++ Y) k := by
      intro k hk
      rw [byteAt_append_left pre X k hk, byteAt_append_left pre Y k hk]
    dsimp only
    congr 1 <;> exact e _ (by omega)
  · rw [if_neg h, if_neg h]

/-- Reading one stored row out of a file laid out as prefix, the row, and a
remainder recovers that row. -/
theorem readRow_prefix_row (pre r rest : List Nat) (hb : ∀ b ∈ r, b < 256) :
    readRow (pre ++ (r ++ rest)) pre.length r.length = r := by
  apply List.ext_getElem
  · simp [readRow]
  · intro i h1 h2
    simp only [readRow, List.getElem_map, List.getElem_range, byteAt]
    have hlt : i < r.length := by simpa [readRow] using h2
    rw [List.getD_append_right pre (r ++ rest) 0 (pre.length + i) (by omega),
      Nat.add_sub_cancel_left,
      List.getD_append r rest 0 i hlt,
      List.getD_eq_getElem r 0 hlt]
    exact Nat.mod_eq_of_lt (hb _ (List.getElem_mem hlt))

/-- Walking forward from the pixel offset over a file laid out as a prefix
followed by the flattened rows reads exactly those rows in order. -/
theorem readRows_flatten (len : Nat) :
    ∀ (rows : List (List Nat)) (pre : List Nat),
      (∀ r ∈ rows, r.length = len) →
      (∀ r ∈ rows, ∀ b ∈ r, b < 256) →
      readRows (pre ++ rows.flatten) (pre.length : Int) (len : Int) len rows.length = rows := by
  intro rows
  induction rows with
  | nil => intro pre _ _; rfl
  | cons r rows ih =>
    intro pre hlen hb
    have hr : r.length = len := hlen r (List.mem_cons_self r rows)
    simp only [List.flatten_cons, List.length_cons, readRows, Int.toNat_ofNat]
    have h1 : readRow (pre ++ (r ++ rows.flatten)) pre.length len = r := by
      rw [← hr]
      exact readRow_prefix_row pre r rows.flatten (hb r (List.mem_cons_self r rows))
    have h2 : readRows (pre ++ (r ++ rows.flatten)) ((pre.length : Int) + (len : Int))
        (len : Int) len rows.length = rows := by
      have := ih (pre ++ r) (fun x hx => hlen x (List.mem_cons_of_mem r hx))
        (fun x hx => hb x (List.mem_cons_of_mem r hx))
      rw [List.append_assoc] at this
      rw [List.length_append, hr] at this
      rw [show ((pre.length : Int) + (len : Int)) = ((pre.length + len : Nat) : Int) by
        push_cast; ring]
      exact this
    rw [h1, h2]

/-- Unrolling the per-row walk from the far end: one more row is read at
`base + n * step`. -/
theorem readRows_snoc (file : List Nat) (s : Int) (len : Nat) :
    ∀ (n : Nat) (base : Int),
      readRows file base s len (n + 1) =
        readRows file base s len n ++ [readRow file (base + (n : Int) * s).toNat len] := by
  intro n
  induction n with
  | zero => intro base; simp [readRows]
  | succ n ih =>
    intro base
    rw [show readRows file base s len (n + 1 + 1) =
        readRow file base.toNat len :: readRows file (base + s) s len (n + 1) from rfl]
    rw [ih (base + s)]
    rw [show readRows file base s len (n + 1) =
        readRow file base.toNat len :: readRows file (base + s) s len n from rfl]
    simp only [List.cons_append]
    rw [show base + s + (n : Int) * s = base + ((n : Nat) + 1 : Int) * s by ring]
    norm_cast

/-- Walking backward (negated row offset) from the last row's position
reads the same rows in reverse order. -/
theorem readRows_reverse (file : List Nat) (s : Int) (len : Nat) :
    ∀ (n : Nat) (base : Int),
      readRows file (base + ((n : Int) - 1) * s) (-s) len n =
        (readRows file base s len n).reverse := by
  intro n
  induction n with
  | zero => intro base; rfl
  | succ n ih =>
    intro base
    rw [show (((n + 1 : Nat)) : Int) - 1 = (n : Int) by push_cast; ring]
    rw [show readRows file (base + (n : Int) * s) (-s) len (n + 1) =
        readRow file (base + (n : Int) * s).toNat len ::
          readRows file (base + (n : Int) * s + -s) (-s) len n from rfl]
    rw [show base + (n : Int) * s + -s = base + ((n : Int) - 1) * s by ring]
    rw [ih base]
    rw [readRows_snoc file s len n base]
    rw [List.reverse_append]
    simp

/-- C3: the same pixel content stored once bottom-up with height `+H` and
once top-down (rows physically reversed in the file) with height `-H`
decodes to identical pixel buffers, for the paletted decoder (first
conjunct) and the direct decoder (second conjunct). -/
theorem c3_row_orientation_independence :
    ∀ (pre : List Nat) (rows : List (List Nat)) (fh : BitmapFileHeader)
      (ih : BitmapInfoHeader) (H : Int),
      0 < H →
      rows.length = H.toNat →
      (∀ r ∈ rows, r.length = rowSize_bytes ih.bitsPerPixel ih.bmpWidth_px) →
      (∀ r ∈ rows, ∀ b ∈ r, b < 256) →
      fh.pixelOffset_bytes = pre.length →
      14 + ih.headerSize_bytes + 4 * ih.numPaletteColors ≤ pre.length →
      extractPalettedPixels (pre ++ rows.flatten) fh { ih with bmpHeight_px := H } =
        extractPalettedPixels (pre ++ rows.reverse.flatten) fh
          { ih with bmpHeight_px := -H } ∧
      extractPixels (pre ++ rows.flatten) fh { ih with bmpHeight_px := H } =
        extractPixels (pre ++ rows.reverse.flatten) fh { ih with bmpHeight_px := -H } := by
  intro pre rows fh ih H hH hlen hrlen hbytes hpo hpal
  have hnat : H.natAbs = rows.length := by omega
  have hnegnat : (-H).natAbs = rows.length := by omega
  have hc1 : ¬ (H : Int) < 0 := by omega
  have hc2 : (-H : Int) < 0 := by omega
  have hup : readRows (pre ++ rows.flatten) (fh.pixelOffset_bytes : Int)
      ((rowSize_bytes ih.bitsPerPixel ih.bmpWidth_px : Nat) : Int)
      (rowSize_bytes ih.bitsPerPixel ih.bmpWidth_px) rows.length = rows := by
    rw [hpo]
    exact readRows_flatten _ rows pre hrlen hbytes
  have hdown : readRows (pre ++ rows.reverse.flatten)
      ((fh.pixelOffset_bytes : Int) +
        ((rows.length - 1 : Nat) : Int) *
          (rowSize_bytes ih.bitsPerPixel ih.bmpWidth_px : Int))
      (-((rowSize_bytes ih.bitsPerPixel ih.bmpWidth_px : Nat) : Int))
      (rowSize_bytes ih.bitsPerPixel ih.bmpWidth_px) rows.length = rows := by
    have h1 : ((rows.length - 1 : Nat) : Int) = (rows.length : Int) - 1 := by omega
    rw [h1]
    rw [readRows_reverse (pre ++ rows.reverse.flatten) _ _ rows.length
      (fh.pixelOffset_bytes : Int)]
    rw [hpo]
    have h2 := readRows_flatten (rowSize_bytes ih.bitsPerPixel ih.bmpWidth_px) rows.reverse pre
      (fun x hx => hrlen x (List.mem_reverse.mp hx))
      (fun x hx => hbytes x (List.mem_reverse.mp hx))
    rw [List.length_reverse] at h2
    rw [h2, List.reverse_reverse]
  constructor
  · simp only [extractPalettedPixels]
    rw [extractColorPalette_shared_region pre rows.flatten rows.reverse.flatten
      ih.headerSize_bytes ih.numPaletteColors hpal]
    cases hp : extractColorPalette (pre ++ rows.reverse.flatten)
        ih.headerSize_bytes ih.numPaletteColors with
    | none => rfl
    | some palette =>
      simp only [if_neg hc1, if_pos hc2]
      rw [hnat, hnegnat, hup, hdown]
  · simp only [extractPixels]
    simp only [if_neg hc1, if_pos hc2]
    rw [hnat, hnegnat, hup, hdown]
    simp only [directPixel]

/-- Shared file prefix for the C3 witness (file header + 40-byte info
header + 16-byte palette region, 70 bytes). -/
def preC3 : List Nat := List.replicate 70 0

/-- One 4-byte row of pixel content for the C3 witness. -/
def rowsC3 : List (List Nat) := [[1, 2, 3, 4]]

/-- Info header for the C3 witness: 8 bits per pixel, width 4. -/
def ihC3 : BitmapInfoHeader :=
  { ihScenarioA with bitsPerPixel := 8, bmpWidth_px := 4 }

/-- Witness for C3 on a one-row 4×1 8-bit image. -/
theorem c3_row_orientation_independence_witness :
    ((0 : Int) < 1 ∧ rowsC3.length = (1 : Int).toNat ∧
      (∀ r ∈ rowsC3, r.length = rowSize_bytes ihC3.bitsPerPixel ihC3.bmpWidth_px) ∧
      (∀ r ∈ rowsC3, ∀ b ∈ r, b < 256) ∧
      fhScenarioA.pixelOffset_bytes = preC3.length ∧
      14 + ihC3.headerSize_bytes + 4 * ihC3.numPaletteColors ≤ preC3.length) ∧
    (extractPalettedPixels (preC3 ++ rowsC3.flatten) fhScenarioA
        { ihC3 with bmpHeight_px := 1 } =
      extractPalettedPixels (preC3 ++ rowsC3.reverse.flatten) fhScenarioA
        { ihC3 with bmpHeight_px := -1 } ∧
    extractPixels (preC3 ++ rowsC3.flatten) fhScenarioA { ihC3 with bmpHeight_px := 1 } =
      extractPixels (preC3 ++ rowsC3.reverse.flatten) fhScenarioA
        { ihC3 with bmpHeight_px := -1 }) :=
  ⟨⟨by decide, by decide, by decide, by decide, by decide, by decide⟩,
   c3_row_orientation_independence preC3 rowsC3 fhScenarioA ihC3 1
     (by decide) (by decide) (by decide) (by decide) (by decide) (by decide)⟩

/-! ## C4 -/

/-- The row loop produces exactly one pixel per remaining count when it
succeeds. -/
theorem palettedRowGo_length (row : List Nat) (palette : List Color4) (bpp ppb mask : Nat) :
    ∀ (r byteNo slot cur : Nat) (l : List Color4),
      palettedRowGo row palette bpp ppb mask r byteNo slot cur = some l → l.length = r := by
  intro r
  induction r with
  | zero =>
    intro byteNo slot cur l h
    simp only [palettedRowGo] at h
    cases h
    rfl
  | succ r ih =>
    intro byteNo slot cur l h
    simp only [palettedRowGo] at h
    generalize hst : (if ppb ≤ slot then (byteNo + 1, 0, row.getD (byteNo + 1) 0 % 256)
      else (byteNo, slot, cur)) = st at h
    obtain ⟨bN, sN, cN⟩ := st
    cases hg : palette.get?
        ((cN &&& (mask <<< (bpp * (ppb - 1 - sN)))) >>> (bpp * (ppb - 1 - sN))) with
    | none => rw [hg] at h; cases h
    | some c =>
      rw [hg] at h
      cases hrec : palettedRowGo row palette bpp ppb mask r bN (sN + 1) cN with
      | none => rw [hrec] at h; cases h
      | some l' =>
        rw [hrec] at h
        simp only [Option.map_some] at h
        cases h
        simp [ih bN (sN + 1) cN l' hrec]

/-- The per-row walk reads one row buffer per row count. -/
theorem readRows_length (file : List Nat) (s : Int) (len : Nat) :
    ∀ (n : Nat) (base : Int), (readRows file base s len n).length = n := by
  intro n
  induction n with
  | zero => intro base; rfl
  | succ n ih => intro base; simp [readRows, ih]

/-- Flattening a successful per-row traversal whose rows each decode to `w`
pixels yields `rows * w` pixels. -/
theorem mapM_flatten_length (w : Nat) (f : List Nat → Option (List Color4))
    (hf : ∀ a l, f a = some l → l.length = w) :
    ∀ (xs : List (List Nat)) (ls : List (List Color4)),
      xs.mapM f = some ls → ls.flatten.length = xs.length * w := by
  intro xs
  induction xs with
  | nil =>
    intro ls h
    simp only [List.mapM_nil] at h
    cases h
    simp
  | cons x xs ih =>
    intro ls h
    rw [List.mapM_cons] at h
    cases hx : f x with
    | none => rw [hx] at h; cases h
    | some b =>
      rw [hx] at h
      cases hm : xs.mapM f with
      | none => rw [hm] at h; cases h
      | some bs =>
        rw [hm] at h
        simp only [Option.some_bind, Option.pure_def, Option.some.injEq] at h
        cases h
        simp only [List.flatten_cons, List.length_append, List.length_cons]
        rw [hf x b hx, ih bs hm]
        ring

/-- Concatenating per-row pixel lists of constant length `w` yields
`rows * w` pixels. -/
theorem flatMap_const_length (w : Nat) (g : List Nat → List Color4)
    (hg : ∀ a, (g a).length = w) :
    ∀ xs : List (List Nat), (xs.flatMap g).length = xs.length * w := by
  intro xs
  induction xs with
  | nil => simp
  | cons x xs ih =>
    simp only [List.flatMap_cons, List.length_append, List.length_cons, hg, ih]
    ring

/-- A successful paletted decode yields `|height| * width` pixels. -/
theorem extractPalettedPixels_length (file : List Nat) (fh : BitmapFileHeader)
    (ih : BitmapInfoHeader) (px : List Color4)
    (h : extractPalettedPixels file fh ih = some px) :
    px.length = ih.bmpHeight_px.natAbs * ih.bmpWidth_px.toNat := by
  simp only [extractPalettedPixels] at h
  split at h
  · cases h
  · rename_i palette hp
    cases hm : (readRows file
        (if ih.bmpHeight_px < 0 then
          (fh.pixelOffset_bytes : Int) +
            ((ih.bmpHeight_px.natAbs - 1 : Nat) : Int) *
              (rowSize_bytes ih.bitsPerPixel ih.bmpWidth_px : Int)
        else (fh.pixelOffset_bytes : Int))
        (if ih.bmpHeight_px < 0 then
          -((rowSize_bytes ih.bitsPerPixel ih.bmpWidth_px : Nat) : Int)
        else ((rowSize_bytes ih.bitsPerPixel ih.bmpWidth_px : Nat) : Int))
        (rowSize_bytes ih.bitsPerPixel ih.bmpWidth_px) ih.bmpHeight_px.natAbs).mapM
        (fun row => palettedRow row palette ih.bitsPerPixel ih.bmpWidth_px.toNat) with
    | none => rw [hm] at h; cases h
    | some ls =>
      rw [hm] at h
      simp only [Option.map_some', Option.some.injEq] at h
      subst h
      rw [mapM_flatten_length ih.bmpWidth_px.toNat _
        (fun a l hl => palettedRowGo_length _ _ _ _ _ _ _ _ _ _ hl) _ ls hm]
      rw [readRows_length]

/-- A successful direct decode yields `|height| * width` pixels. -/
theorem extractPixels_length (file : List Nat) (fh : BitmapFileHeader)
    (ih : BitmapInfoHeader) (px : List Color4)
    (h : extractPixels file fh ih = some px) :
    px.length = ih.bmpHeight_px.natAbs * ih.bmpWidth_px.toNat := by
  simp only [extractPixels] at h
  cases hr : findShift ih.redMask with
  | none => rw [hr] at h; cases h
  | some rs =>
  cases hg : findShift ih.greenMask with
  | none => rw [hr, hg] at h; cases h
  | some gs =>
  cases hb : findShift ih.blueMask with
  | none => rw [hr, hg, hb] at h; cases h
  | some bs =>
  cases ha : alphaShiftOpt ih.alphaMask with
  | none => rw [hr, hg, hb, ha] at h; cases h
  | some aSh =>
    rw [hr, hg, hb, ha] at h
    simp only [Option.some.injEq] at h
    subst h
    rw [flatMap_const_length ih.bmpWidth_px.toNat _ (fun a => by simp) _]
    rw [readRows_length]

/-- Every extraction branch of the dispatch preserves the header's width
and height, so a successful dispatch for a real bit depth yields
`|height| * width` pixels. -/
theorem pxDispatch_length (file : List Nat) (fh : BitmapFileHeader)
    (ih : BitmapInfoHeader) (V2 V3_4_5 : Bool) (px : List Color4)
    (h : pxDispatch file fh ih V2 V3_4_5 = some px)
    (hbpp : ih.bitsPerPixel ∈ ([1, 2, 4, 8, 16, 24, 32] : List Nat)) :
    px.length = ih.bmpHeight_px.natAbs * ih.bmpWidth_px.toNat := by
  unfold pxDispatch at h
  split at h
  · exact extractPalettedPixels_length _ _ _ _ h
  split at h
  · split at h
    · have := extractPixels_length _ _ _ _ h
      rw [this]
    · have := extractPixels_length _ _ _ _ h
      rw [this]
      split <;> rfl
  split at h
  · have := extractPixels_length _ _ _ _ h
    rw [this]
  split at h
  · split at h
    · have := extractPixels_length _ _ _ _ h
      rw [this]
    · have := extractPixels_length _ _ _ _ h
      rw [this]
      split <;> rfl
  · rename_i h8 h16 h24 h32
    simp only [beq_iff_eq] at h16 h24 h32
    simp only [List.mem_cons, List.not_mem_nil, or_false] at hbpp
    omega

/-- A successful `loadBmp` return built from a pixel vector determines the
image's fields. -/
theorem map_ok_inv (X : Option (List Color4)) (w h : Int) (img : Image)
    (hmap : X.map (fun pixels =>
        Except.ok (ε := Int) { pixels := pixels, width_px := w, height_px := h }) =
      some (Except.ok img)) :
    X = some img.pixels ∧ img.width_px = w ∧ img.height_px = h := by
  cases X with
  | none => cases hmap
  | some pixels =>
    simp only [Option.map_some', Option.some.injEq, Except.ok.injEq] at hmap
    rw [← hmap]
    exact ⟨rfl, rfl, rfl⟩

/-- Row-major addressing stays inside a `w * h` buffer. -/
theorem addr_lt (w h row col : Nat) (hrow : row < h) (hcol : col < w) :
    col + row * w < w * h :=
  calc col + row * w < w + row * w := by omega
    _ = (row + 1) * w := by ring
    _ ≤ h * w := Nat.mul_le_mul_right w (by omega)
    _ = w * h := Nat.mul_comm _ _

/-- C4 counterexample: the claim says the pixel buffer of every successful
decode has length width × height as exposed by the Image.  The loader
stores the header's height verbatim, so a top-down file exposes a negative
height: the 1×1 top-down file decodes successfully to 1 pixel while the
exposed width × height is −1. -/
theorem c4_exposed_height_negative :
    loadBmp (some fileTopDown1x1) = some (Except.ok imgTopDown1x1) ∧
    (imgTopDown1x1.pixels.length : Int) ≠
      imgTopDown1x1.width_px * imgTopDown1x1.height_px :=
  ⟨rfl, by decide⟩

/-- C4 (amended): after every successful decode of an image with a handled
bit depth and non-negative width, the pixel buffer is a flat sequence of
length width × |height| (the exposed height keeps the sign from the file),
and every address `col + row * width` with `col < width`,
`row < |height|` falls inside it. -/
theorem c4_pixel_buffer_dimensions :
    ∀ (file : List Nat) (img : Image),
      loadBmp (some file) = some (Except.ok img) →
      0 ≤ (extractInfoHeader file).bmpWidth_px →
      (extractInfoHeader file).bitsPerPixel ∈ ([1, 2, 4, 8, 16, 24, 32] : List Nat) →
      img.pixels.length = img.width_px.toNat * img.height_px.natAbs ∧
      (∀ row col : Nat, row < img.height_px.natAbs → col < img.width_px.toNat →
        col + row * img.width_px.toNat < img.pixels.length) := by
  intro file img h _hw hbpp
  have hlen : img.pixels.length = img.width_px.toNat * img.height_px.natAbs := by
    unfold loadBmp at h
    split at h
    next heq => exact absurd heq (by simp)
    next f2 heq =>
    injection heq with hf
    subst hf
    dsimp only at h
    split at h
    · exact absurd h (by simp)
    split at h
    · exact absurd h (by simp)
    split at h
    · exact absurd h (by simp)
    split at h
    · obtain ⟨hX, hwid, hht⟩ := map_ok_inv _ _ _ _ h
      rw [hwid, hht, pxDispatch_length _ _ _ _ _ _ hX hbpp]
      exact Nat.mul_comm _ _
    · exfalso
      rename_i hcontains
      have hc2 : handledHeaderSizes.contains (u32 file 14) = false := by
        simpa [extractInfoHeader] using hcontains
      have hzero : (extractInfoHeader file).bitsPerPixel = 0 := by
        simp only [extractInfoHeader]
        rw [if_neg (by rw [hc2]; exact Bool.false_ne_true)]
      rw [hzero] at hbpp
      simp at hbpp
  exact ⟨hlen, fun row col hr hc => by rw [hlen]; exact addr_lt _ _ _ _ hr hc⟩

/-- Witness for C4 (amended) on the successfully decoded bottom-up 1×1
24-bit file. -/
theorem c4_pixel_buffer_dimensions_witness :
    (loadBmp (some fileBottomUp1x1) = some (Except.ok imgBottomUp1x1) ∧
      0 ≤ (extractInfoHeader fileBottomUp1x1).bmpWidth_px ∧
      (extractInfoHeader fileBottomUp1x1).bitsPerPixel ∈
        ([1, 2, 4, 8, 16, 24, 32] : List Nat)) ∧
    (imgBottomUp1x1.pixels.length =
        imgBottomUp1x1.width_px.toNat * imgBottomUp1x1.height_px.natAbs ∧
      (∀ row col : Nat, row < imgBottomUp1x1.height_px.natAbs →
        col < imgBottomUp1x1.width_px.toNat →
        col + row * imgBottomUp1x1.width_px.toNat < imgBottomUp1x1.pixels.length)) :=
  ⟨⟨rfl, by decide, by decide⟩,
   c4_pixel_buffer_dimensions fileBottomUp1x1 imgBottomUp1x1 rfl (by decide) (by decide)⟩
